import Mathlib

/-
Verification of the orbital-simulation core of
`src/assets/js/orbital_sim.js` (p5.js sketch).

Modelling conventions:
* JavaScript floating-point scalars are modelled as exact rationals (ℚ).
  The literal `Math.PI` is the IEEE-754 double closest to π, which is the
  exact rational 884279719003555 / 2^48; the literal `1.1e-2` for `dt` is
  modelled as 11/1000.
* p5.js 2-D vectors are modelled as `Vec2` with rational components.
  Library operations with algebraic content (`add`, `sub`, `mult`, `div`,
  `magSq`) are embedded directly; the library operations that involve a
  real square root or an arc-cosine (`normalize`, `dist` via `Math.sqrt`,
  `angleBetween`) are *parameters* of the embedded functions, since the
  spec treats VectorMath as an external library dependency.
* The source's `updatePlanet_Iterative` assigns `vNext` / `xNext` without
  `let`, so those are JavaScript globals: with `iterCount = 0` the commit
  reads whatever a previous call left there (or throws a ReferenceError on
  the first call).  The embedding threads those globals explicitly as an
  `Option (Vec2 × Vec2)` (none = still undeclared, i.e. a commit from
  `none` models the ReferenceError crash).
-/

namespace OrbitalSim

/-- A p5.js 2-D vector with exact rational components. -/
structure Vec2 where
  x : ℚ
  y : ℚ
deriving DecidableEq, Repr

/-- p5 `v1.add(v2)`. -/
def Vec2.add (a b : Vec2) : Vec2 := ⟨a.x + b.x, a.y + b.y⟩

/-- p5 `v1.sub(v2)`. -/
def Vec2.sub (a b : Vec2) : Vec2 := ⟨a.x - b.x, a.y - b.y⟩

/-- p5 `v.mult(s)` (scalar multiplication). -/
def Vec2.smul (s : ℚ) (v : Vec2) : Vec2 := ⟨s * v.x, s * v.y⟩

/-- p5 `v.div(s)` (scalar division). -/
def Vec2.divs (v : Vec2) (s : ℚ) : Vec2 := ⟨v.x / s, v.y / s⟩

/-- p5 `v.magSq()` = x² + y². -/
def Vec2.magSq (v : Vec2) : ℚ := v.x * v.x + v.y * v.y

/-- The global `dt = 1.1e-2` of the sketch, as an exact rational. -/
def dtQ : ℚ := 11 / 1000

/-- The IEEE-754 double value of `Math.PI`, as an exact rational. -/
def jsPI : ℚ := 884279719003555 / 281474976710656

/-- One pass of the loop body of `updatePlanet_Iterative` (source lines
95–104).  Given the fixed `vCurr`/`xCurr` and the running mean position
`xAvg`, returns the pass's `(vNext, xNext, xAvg')`.  `nrm` is the p5
`normalize` library function (external: involves a real square root). -/
def iterPass (nrm : Vec2 → Vec2) (G dtv : ℚ) (vCurr xCurr xAvg : Vec2) :
    Vec2 × Vec2 × Vec2 :=
  let a := Vec2.smul (-G / Vec2.magSq xAvg) (nrm xAvg)
  let vNext := Vec2.add vCurr (Vec2.smul dtv a)
  let vAvg := Vec2.divs (Vec2.add vCurr vNext) 2
  let xNext := Vec2.add xCurr (Vec2.smul dtv vAvg)
  (vNext, xNext, Vec2.divs (Vec2.add xCurr xNext) 2)

/-- The loop of `updatePlanet_Iterative` (source lines 95–104), unrolled
`n` times.  The first component is the pair of globals `(vNext, xNext)`
(`none` while still undeclared), the second is the running `xAvg`, which
starts as `xCurr` (source line 93). -/
def iterGo (nrm : Vec2 → Vec2) (G dtv : ℚ) (vCurr xCurr : Vec2)
    (g : Option (Vec2 × Vec2)) : ℕ → Option (Vec2 × Vec2) × Vec2
  | 0 => (g, xCurr)
  | n + 1 =>
    let st := iterPass nrm G dtv vCurr xCurr (iterGo nrm G dtv vCurr xCurr g n).2
    (some (st.1, st.2.1), st.2.2)

/-- Source `updatePlanet_Iterative(iterCount, G, dt)` (lines 88–109):
runs the loop `iterCount` times and then commits the globals
`vNext`/`xNext` as the new `(vPlanet, xPlanet)`.  `g` is the incoming
value of those globals; committing from `g = none` (iterCount = 0 on the
very first call) is the ReferenceError crash, modelled as `none`. -/
def updatePlanet_Iterative (nrm : Vec2 → Vec2) (iterCount : ℕ) (G dtv : ℚ)
    (g : Option (Vec2 × Vec2)) (v x : Vec2) : Option (Vec2 × Vec2) :=
  (iterGo nrm G dtv v x g iterCount).1

/-- The subdivision loop of `updatePlanet_Iterative_Subdivided`
(source lines 111–116), threading the planet state and the globals
through `n` calls of `updatePlanet_Iterative` with time step `dtSub`.
A crash (`none`) in any call propagates. -/
def updSubGo (nrm : Vec2 → Vec2) (iterCount : ℕ) (G dtSub : ℚ) :
    ℕ → Option (Vec2 × Vec2) → Vec2 → Vec2 → Option (Vec2 × Vec2)
  | 0, _, v, x => some (v, x)
  | n + 1, g, v, x =>
    match updatePlanet_Iterative nrm iterCount G dtSub g v x with
    | none => none
    | some (v', x') => updSubGo nrm iterCount G dtSub n (some (v', x')) v' x'

/-- Source `updatePlanet_Iterative_Subdivided(iterCount, subdivCount, G, dt)`
(lines 111–116): calls `updatePlanet_Iterative` `subdivCount` times, each
with time step `dt / subdivCount`. -/
def updatePlanet_Iterative_Subdivided (nrm : Vec2 → Vec2)
    (iterCount subdivCount : ℕ) (G dtv : ℚ) (g : Option (Vec2 × Vec2))
    (v x : Vec2) : Option (Vec2 × Vec2) :=
  updSubGo nrm iterCount G (dtv / (subdivCount : ℚ)) subdivCount g v x

/-- Source `interpolatePosition(path, index, subindex)` (lines 118–122):
`path[index].mult(subindex).add(path[(index+1)%path.length].mult(1-subindex))`.
Out-of-range indexing (JS `undefined`) cannot occur at the call site
because the replay index stays below the path length; `getD` with a
default is used for totality. -/
def interpolatePosition (path : List Vec2) (index : ℕ) (subindex : ℚ) : Vec2 :=
  let p1 := path.getD index ⟨0, 0⟩
  let p2 := path.getD ((index + 1) % path.length) ⟨0, 0⟩
  Vec2.add (Vec2.smul subindex p1) (Vec2.smul (1 - subindex) p2)

/-- p5 `p.dist(q)` = sqrt((px−qx)² + (py−qy)²); `rsqrt` is the external
`Math.sqrt` library function. -/
def vecDist (rsqrt : ℚ → ℚ) (p q : Vec2) : ℚ :=
  rsqrt (Vec2.magSq (Vec2.sub p q))

/-- Source `getTriangleArea([p0, p1, p2])` (lines 159–169): Heron's
formula on the three pairwise distances. -/
def getTriangleArea (rsqrt : ℚ → ℚ) (p0 p1 p2 : Vec2) : ℚ :=
  let s0 := vecDist rsqrt p0 p1
  let s1 := vecDist rsqrt p1 p2
  let s2 := vecDist rsqrt p2 p0
  let s := (s0 + s1 + s2) / 2
  rsqrt (s * (s - s0) * (s - s1) * (s - s2))

/-- Source `getSweepAreaInAU2(sweepPath)` (lines 171–180): sums, over the
consecutive pairs of the path, the area of the triangle
(origin, p_i, p_{i+1}).  The source's indexed `for` loop over
`i = 0 .. length-2` is rendered as structural recursion over the list. -/
def getSweepAreaInAU2 (rsqrt : ℚ → ℚ) : List Vec2 → ℚ
  | p1 :: p2 :: rest =>
    getTriangleArea rsqrt ⟨0, 0⟩ p1 p2 + getSweepAreaInAU2 rsqrt (p2 :: rest)
  | _ => 0

/-- The orbit record built by `createNewOrbit` (source lines 68–84).
`isFirstOrbit = true` is the spec's LiveSimulation mode,
`isFirstOrbit = false` its SnappedReplay mode;
`angularChangeThisOrbit` is the spec's `angularAccumulator`,
`currSnapIndex`/`currSnapSubindex` its `replayIndex`/`replaySubindex`. -/
structure Orbit where
  xPlanet : Vec2
  vPlanet : Vec2
  isFirstOrbit : Bool
  angularChangeThisOrbit : ℚ
  firstOrbitPath : List Vec2
  currSnapIndex : ℕ
  currSnapSubindex : ℚ
  indexCarryOver : ℚ
deriving DecidableEq, Repr

/-- Source `createNewOrbit()` (lines 68–84).  `v0` is the launch velocity
read from the UI inputs by `inputVelocityToPhys`, modelled as a
parameter. -/
def createNewOrbit (v0 : Vec2) : Orbit :=
  { xPlanet := ⟨0, -1⟩
    vPlanet := v0
    isFirstOrbit := true
    angularChangeThisOrbit := 0
    firstOrbitPath := [⟨0, -1⟩]
    currSnapIndex := 0
    currSnapSubindex := 0
    indexCarryOver := 0 }

/-- The integrator call of the live-simulation branch of `draw`
(source line 386): `updatePlanet_Iterative_Subdivided(5, 25, G, dt)` with
the globals `vNext`/`xNext` taken as still undeclared.  (Their actual
value is irrelevant: with `iterCount = 5 ≥ 1` the loop always overwrites
them, see `liveResult_some`.) -/
def liveResult (nrm : Vec2 → Vec2) (o : Orbit) : Option (Vec2 × Vec2) :=
  updatePlanet_Iterative_Subdivided nrm 5 25 1 dtQ none o.vPlanet o.xPlanet

/-- The live-simulation branch of `draw` (source lines 382–407) after the
integrator has produced `(v', x')`: push the new position, accumulate the
unsigned angle (`ang` is the external p5 `angleBetween`), and on closure
(`angularChange > Math.PI*2`) transition to snapped replay, computing
`indexCarryOver = angleCarryOver / firstStepAngle` (the division is
unguarded in the source; `/` on ℚ is the exact value when
`firstStepAngle ≠ 0`, see `jsDiv` for the finiteness model). -/
def tickLive (ang : Vec2 → Vec2 → ℚ) (o : Orbit) (v' x' : Vec2) : Orbit :=
  let path2 := o.firstOrbitPath ++ [x']
  let xPlanetPrev := path2.getD (path2.length - 2) ⟨0, 0⟩
  let acc2 := o.angularChangeThisOrbit + |ang xPlanetPrev x'|
  if jsPI * 2 < acc2 then
    let angleCarryOver := acc2 - jsPI * 2
    let firstStepAngle := |ang (path2.getD 1 ⟨0, 0⟩) (path2.getD 0 ⟨0, 0⟩)|
    let carry := angleCarryOver / firstStepAngle
    { xPlanet := x'
      vPlanet := v'
      isFirstOrbit := false
      angularChangeThisOrbit := acc2
      firstOrbitPath := path2
      currSnapIndex := 0
      currSnapSubindex := carry
      indexCarryOver := carry }
  else
    { o with
      xPlanet := x'
      vPlanet := v'
      angularChangeThisOrbit := acc2
      firstOrbitPath := path2 }

/-- The snapped-replay branch of `draw` (source lines 409–427):
increment `currSnapIndex`; on wrap (`currSnapIndex == path.length`) reset
it to 0, add `indexCarryOver` to `currSnapSubindex` and, if the result is
≥ 1, increment the index once and subtract 1; finally interpolate. -/
def tickReplay (o : Orbit) : Orbit :=
  let i1 := o.currSnapIndex + 1
  let p :=
    if i1 = o.firstOrbitPath.length then
      let s1 := o.currSnapSubindex + o.indexCarryOver
      if 1 ≤ s1 then (1, s1 - 1) else (0, s1)
    else (i1, o.currSnapSubindex)
  { o with
    currSnapIndex := p.1
    currSnapSubindex := p.2
    xPlanet := interpolatePosition o.firstOrbitPath p.1 p.2 }

/-- One orbit-tracker tick: the orbit-mutating part of `draw`
(source lines 379–432), with the rendering calls (external) omitted.
The `none` branch models the unreachable integrator crash (it cannot
fire for `iterCount = 5`, see `liveResult_some`). -/
def tick (nrm : Vec2 → Vec2) (ang : Vec2 → Vec2 → ℚ) (o : Orbit) : Orbit :=
  if o.isFirstOrbit then
    match liveResult nrm o with
    | none => o
    | some (v', x') => tickLive ang o v' x'
  else tickReplay o

/-- Finiteness model of IEEE-754 double division for finite operands:
dividing by 0 yields ±Infinity or NaN (a non-finite value, `none`);
otherwise the exact quotient. -/
def jsDiv (a b : ℚ) : Option ℚ :=
  if b = 0 then none else some (a / b)

/-- Modelled from the spec (§4.1, Integrator contract): one pass of the
spec's five equations, transcribed from the spec's wording. -/
def advanceSpecPass (nrm : Vec2 → Vec2) (G ts : ℚ) (v x mp : Vec2) :
    Vec2 × Vec2 × Vec2 :=
  let a := Vec2.divs (Vec2.smul (-G) (nrm mp)) (Vec2.magSq mp)
  let vNext := Vec2.add v (Vec2.smul ts a)
  let meanVelocity := Vec2.divs (Vec2.add v vNext) 2
  let xNext := Vec2.add x (Vec2.smul ts meanVelocity)
  (vNext, xNext, Vec2.divs (Vec2.add x xNext) 2)

/-- Modelled from the spec (§4.1): repeat the pass `n` times, with
`meanPosition` initialized to the current position. -/
def advanceSpecGo (nrm : Vec2 → Vec2) (G ts : ℚ) (v x : Vec2) :
    ℕ → Vec2 × Vec2 × Vec2
  | 0 => (v, x, x)
  | n + 1 =>
    advanceSpecPass nrm G ts v x (advanceSpecGo nrm G ts v x n).2.2

/-- Modelled from the spec (§4.1): after the loop, commit
`velocityNext` / `positionNext` as the new state. -/
def advanceSpec (nrm : Vec2 → Vec2) (G ts : ℚ) (v x : Vec2) (n : ℕ) :
    Vec2 × Vec2 :=
  ((advanceSpecGo nrm G ts v x n).1, (advanceSpecGo nrm G ts v x n).2.1)

/-- Modelled from the spec (§4.3): Heron's formula for the triangle
(origin, p, q) on the three pairwise distances. -/
def heronTriangleAreaSpec (rsqrt : ℚ → ℚ) (p q : Vec2) : ℚ :=
  let a := vecDist rsqrt ⟨0, 0⟩ p
  let b := vecDist rsqrt p q
  let c := vecDist rsqrt q ⟨0, 0⟩
  let s := (a + b + c) / 2
  rsqrt (s * (s - a) * (s - b) * (s - c))

/-- Modelled from the spec (§4.3): the swept area as the sum over
consecutive point pairs of the Heron triangle area. -/
def sweptAreaSpec (rsqrt : ℚ → ℚ) (path : List Vec2) : ℚ :=
  ((path.zip path.tail).map (fun pr => heronTriangleAreaSpec rsqrt pr.1 pr.2)).sum

/-- A concrete instance of the external `normalize` library parameter,
used by concrete evaluations: the constant zero vector (any function of
the right type exercises the embedded control flow). -/
def nrmZero : Vec2 → Vec2 := fun _ => ⟨0, 0⟩

/-- A concrete instance of the external `angleBetween` library parameter
whose constant value 7 is irrelevant to realizability questions: only
used to drive a closure transition in a single tick. -/
def angSeven : Vec2 → Vec2 → ℚ := fun _ _ => 7

/-- A concrete, symmetric instance of the external `angleBetween` library
parameter: the unsigned angle is 1/10 when both points are still near the
launch point (x-coordinate ≤ 11/1000) and 3 afterwards.  Both values lie
in [0, π], the range of |p5.angleBetween|, and such a sequence of
consecutive unsigned angles (one small first step, later large steps) is
realizable by actual points, e.g. on an eccentric orbit that starts near
aphelion and closes near perihelion. -/
def angUneven : Vec2 → Vec2 → ℚ := fun p q =>
  if p.x ≤ 11 / 1000 ∧ q.x ≤ 11 / 1000 then 1 / 10 else 3

/-- A concrete launch orbit used by concrete instantiations. -/
def orbit0 : Orbit := createNewOrbit ⟨1, 0⟩

/-- A concrete snapped-replay orbit (as reached after a closure) used by
concrete instantiations: two path points, replay pointer one before the
wrap, `currSnapSubindex = 1/2`, `indexCarryOver = 3/4`. -/
def orbitReplay : Orbit :=
  { xPlanet := ⟨1, 0⟩
    vPlanet := ⟨0, 1⟩
    isFirstOrbit := false
    angularChangeThisOrbit := 7
    firstOrbitPath := [⟨0, -1⟩, ⟨1, 0⟩]
    currSnapIndex := 1
    currSnapSubindex := 1 / 2
    indexCarryOver := 3 / 4 }

/-- First trace state of the closure counterexample run (launch velocity
(1,0), `nrmZero` integration, `angUneven` angles): after one tick. -/
def cexOrbit1 : Orbit :=
  { xPlanet := ⟨11/1000, -1⟩
    vPlanet := ⟨1, 0⟩
    isFirstOrbit := true
    angularChangeThisOrbit := 1/10
    firstOrbitPath := [⟨0, -1⟩, ⟨11/1000, -1⟩]
    currSnapIndex := 0
    currSnapSubindex := 0
    indexCarryOver := 0 }

/-- Second trace state of the closure counterexample run. -/
def cexOrbit2 : Orbit :=
  { cexOrbit1 with
    xPlanet := ⟨11/500, -1⟩
    angularChangeThisOrbit := 31/10
    firstOrbitPath := [⟨0, -1⟩, ⟨11/1000, -1⟩, ⟨11/500, -1⟩] }

/-- Third trace state of the closure counterexample run. -/
def cexOrbit3 : Orbit :=
  { cexOrbit1 with
    xPlanet := ⟨33/1000, -1⟩
    angularChangeThisOrbit := 61/10
    firstOrbitPath := [⟨0, -1⟩, ⟨11/1000, -1⟩, ⟨11/500, -1⟩, ⟨33/1000, -1⟩] }

/-- Fourth trace state of the closure counterexample run: the tick that
enters snapped replay.  The accumulated angle 91/10 overshoots 2π by
about 2.82, while the first recorded step subtends only 1/10, so the
committed `indexCarryOver` (and hence `currSnapSubindex`) is about
28.17 — far outside [0, 1). -/
def cexOrbit4 : Orbit :=
  { xPlanet := ⟨11/250, -1⟩
    vPlanet := ⟨1, 0⟩
    isFirstOrbit := false
    angularChangeThisOrbit := 91/10
    firstOrbitPath :=
      [⟨0, -1⟩, ⟨11/1000, -1⟩, ⟨11/500, -1⟩, ⟨33/1000, -1⟩, ⟨11/250, -1⟩]
    currSnapIndex := 0
    currSnapSubindex := 1982157125149649/70368744177664
    indexCarryOver := 1982157125149649/70368744177664 }

-- ————————————————————————————————————————————————————————————————————
-- Helper lemmas
-- ————————————————————————————————————————————————————————————————————

theorem Vec2.ext2 {a b : Vec2} (hx : a.x = b.x) (hy : a.y = b.y) : a = b := by
  cases a; cases b; simp_all

/-- `updatePlanet_Iterative` with at least one loop pass always commits a
defined pair of globals. -/
theorem updatePlanet_succ_isSome (nrm : Vec2 → Vec2) (G dtv : ℚ)
    (g : Option (Vec2 × Vec2)) (v x : Vec2) (m : ℕ) :
    (updatePlanet_Iterative nrm (m + 1) G dtv g v x).isSome = true := by
  simp [updatePlanet_Iterative, iterGo]

/-- The subdivision loop with `iterCount = 5` never crashes. -/
theorem updSubGo_isSome (nrm : Vec2 → Vec2) (G dtv : ℚ) :
    ∀ (n : ℕ) (g : Option (Vec2 × Vec2)) (v x : Vec2),
      (updSubGo nrm 5 G dtv n g v x).isSome = true := by
  intro n
  induction n with
  | zero => intro g v x; simp [updSubGo]
  | succ k ih =>
    intro g v x
    have h5 := updatePlanet_succ_isSome nrm G dtv g v x 4
    rcases hres : updatePlanet_Iterative nrm 5 G dtv g v x with _ | ⟨v', x'⟩
    · rw [hres] at h5; simp at h5
    · simp [updSubGo, hres, ih]

/-- The live-simulation integrator call always produces a new state. -/
theorem liveResult_some (nrm : Vec2 → Vec2) (o : Orbit) :
    ∃ v' x', liveResult nrm o = some (v', x') := by
  have h := updSubGo_isSome nrm 1 (dtQ / (25 : ℚ)) 25 none o.vPlanet o.xPlanet
  rcases hres : updSubGo nrm 5 1 (dtQ / (25 : ℚ)) 25 none o.vPlanet o.xPlanet with
    _ | ⟨v', x'⟩
  · rw [hres] at h; simp at h
  · exact ⟨v', x', hres⟩

theorem tick_live (nrm : Vec2 → Vec2) (ang : Vec2 → Vec2 → ℚ) (o : Orbit)
    (h : o.isFirstOrbit = true) (v' x' : Vec2)
    (hres : liveResult nrm o = some (v', x')) :
    tick nrm ang o = tickLive ang o v' x' := by
  simp [tick, h, hres]

theorem tick_replay (nrm : Vec2 → Vec2) (ang : Vec2 → Vec2 → ℚ) (o : Orbit)
    (h : o.isFirstOrbit = false) :
    tick nrm ang o = tickReplay o := by
  simp [tick, h]

/-- One source loop pass equals one pass of the spec's five equations. -/
theorem iterPass_eq_specPass (nrm : Vec2 → Vec2) (G ts : ℚ) (v x mp : Vec2) :
    iterPass nrm G ts v x mp = advanceSpecPass nrm G ts v x mp := by
  simp only [iterPass, advanceSpecPass, Vec2.smul, Vec2.divs, Vec2.add,
    Vec2.magSq, Prod.mk.injEq, Vec2.mk.injEq]
  refine ⟨⟨?_, ?_⟩, ⟨?_, ?_⟩, ?_, ?_⟩ <;> ring

/-- The running mean position of the source loop equals the spec's. -/
theorem iterGo_snd_eq_spec (nrm : Vec2 → Vec2) (G ts : ℚ) (v x : Vec2)
    (g : Option (Vec2 × Vec2)) :
    ∀ n, (iterGo nrm G ts v x g n).2 = (advanceSpecGo nrm G ts v x n).2.2 := by
  intro n
  induction n with
  | zero => rfl
  | succ k ih => simp [iterGo, advanceSpecGo, ih, iterPass_eq_specPass]

theorem iterGo_fst_eq_spec (nrm : Vec2 → Vec2) (G ts : ℚ) (v x : Vec2)
    (g : Option (Vec2 × Vec2)) (m : ℕ) :
    (iterGo nrm G ts v x g (m + 1)).1 =
      some ((advanceSpecGo nrm G ts v x (m + 1)).1,
            (advanceSpecGo nrm G ts v x (m + 1)).2.1) := by
  simp [iterGo, advanceSpecGo, iterGo_snd_eq_spec, iterPass_eq_specPass]

/-- With the zero-vector instance of the `normalize` parameter the
acceleration vanishes, so a pass returns the velocity unchanged and moves
the position by `dtv·v`, independently of the running mean position. -/
theorem iterPass_nrmZero (G dtv : ℚ) (v x xAvg : Vec2) :
    iterPass nrmZero G dtv v x xAvg =
      (v, Vec2.add x (Vec2.smul dtv v),
        Vec2.divs (Vec2.add x (Vec2.add x (Vec2.smul dtv v))) 2) := by
  unfold iterPass nrmZero
  refine Prod.ext ?_ (Prod.ext ?_ ?_) <;>
    · apply Vec2.ext2 <;>
        · dsimp only [Vec2.smul, Vec2.divs, Vec2.add, Vec2.magSq]
          ring

theorem updatePlanet_nrmZero (G dtv : ℚ) (g : Option (Vec2 × Vec2))
    (v x : Vec2) (m : ℕ) :
    updatePlanet_Iterative nrmZero (m + 1) G dtv g v x =
      some (v, Vec2.add x (Vec2.smul dtv v)) := by
  simp [updatePlanet_Iterative, iterGo, iterPass_nrmZero]

theorem updSubGo_nrmZero (G dtv : ℚ) :
    ∀ (n : ℕ) (g : Option (Vec2 × Vec2)) (v x : Vec2),
      updSubGo nrmZero 5 G dtv n g v x =
        some (v, Vec2.add x (Vec2.smul ((n : ℚ) * dtv) v)) := by
  intro n
  induction n with
  | zero =>
    intro g v x
    simp [updSubGo, Vec2.add, Vec2.smul]
  | succ k ih =>
    intro g v x
    simp only [updSubGo, updatePlanet_nrmZero G dtv g v x 4]
    rw [ih]
    refine congrArg some (Prod.ext rfl ?_)
    apply Vec2.ext2 <;>
      · dsimp only [Vec2.add, Vec2.smul]
        push_cast
        ring

/-- Closed form of the live integrator call for the zero `normalize`
instance: velocity unchanged, position advanced by `dt·v`. -/
theorem liveResult_nrmZero (o : Orbit) :
    liveResult nrmZero o =
      some (o.vPlanet, Vec2.add o.xPlanet (Vec2.smul dtQ o.vPlanet)) := by
  show updSubGo nrmZero 5 1 (dtQ / ((25 : ℕ) : ℚ)) 25 none o.vPlanet o.xPlanet = _
  rw [updSubGo_nrmZero]
  have h : ((25 : ℕ) : ℚ) * (dtQ / ((25 : ℕ) : ℚ)) = dtQ := by
    push_cast
    ring
  rw [h]

/-- A live tick with the zero `normalize` instance reduces to `tickLive`
on the closed-form integrator output. -/
theorem tick_nrmZero_live (ang : Vec2 → Vec2 → ℚ) (o : Orbit)
    (h : o.isFirstOrbit = true) :
    tick nrmZero ang o =
      tickLive ang o o.vPlanet (Vec2.add o.xPlanet (Vec2.smul dtQ o.vPlanet)) :=
  tick_live nrmZero ang o h _ _ (liveResult_nrmZero o)

/-- Record form of the live tick when the accumulated angle stays at or
below 2π. -/
theorem tickLive_no_closure (ang : Vec2 → Vec2 → ℚ) (o : Orbit) (v' x' : Vec2)
    (h : ¬ jsPI * 2 < o.angularChangeThisOrbit +
        |ang ((o.firstOrbitPath ++ [x']).getD ((o.firstOrbitPath ++ [x']).length - 2) ⟨0, 0⟩) x'|) :
    tickLive ang o v' x' =
      { o with
        xPlanet := x'
        vPlanet := v'
        angularChangeThisOrbit := o.angularChangeThisOrbit +
          |ang ((o.firstOrbitPath ++ [x']).getD ((o.firstOrbitPath ++ [x']).length - 2) ⟨0, 0⟩) x'|
        firstOrbitPath := o.firstOrbitPath ++ [x'] } := by
  simp only [tickLive]
  rw [if_neg h]

/-- Record form of the live tick at the closure transition. -/
theorem tickLive_closure (ang : Vec2 → Vec2 → ℚ) (o : Orbit) (v' x' : Vec2)
    (h : jsPI * 2 < o.angularChangeThisOrbit +
        |ang ((o.firstOrbitPath ++ [x']).getD ((o.firstOrbitPath ++ [x']).length - 2) ⟨0, 0⟩) x'|) :
    tickLive ang o v' x' =
      { xPlanet := x'
        vPlanet := v'
        isFirstOrbit := false
        angularChangeThisOrbit := o.angularChangeThisOrbit +
          |ang ((o.firstOrbitPath ++ [x']).getD ((o.firstOrbitPath ++ [x']).length - 2) ⟨0, 0⟩) x'|
        firstOrbitPath := o.firstOrbitPath ++ [x']
        currSnapIndex := 0
        currSnapSubindex := (o.angularChangeThisOrbit +
          |ang ((o.firstOrbitPath ++ [x']).getD ((o.firstOrbitPath ++ [x']).length - 2) ⟨0, 0⟩) x'| - jsPI * 2) /
          |ang ((o.firstOrbitPath ++ [x']).getD 1 ⟨0, 0⟩) ((o.firstOrbitPath ++ [x']).getD 0 ⟨0, 0⟩)|
        indexCarryOver := (o.angularChangeThisOrbit +
          |ang ((o.firstOrbitPath ++ [x']).getD ((o.firstOrbitPath ++ [x']).length - 2) ⟨0, 0⟩) x'| - jsPI * 2) /
          |ang ((o.firstOrbitPath ++ [x']).getD 1 ⟨0, 0⟩) ((o.firstOrbitPath ++ [x']).getD 0 ⟨0, 0⟩)| } := by
  simp only [tickLive]
  rw [if_pos h]

/-- A live tick always appends the new position to the path. -/
theorem tickLive_path (ang : Vec2 → Vec2 → ℚ) (o : Orbit) (v' x' : Vec2) :
    (tickLive ang o v' x').firstOrbitPath = o.firstOrbitPath ++ [x'] := by
  simp only [tickLive]
  split <;> rfl

/-- A live tick always adds the unsigned angle between predecessor and
new point to the accumulator. -/
theorem tickLive_acc (ang : Vec2 → Vec2 → ℚ) (o : Orbit) (v' x' : Vec2) :
    (tickLive ang o v' x').angularChangeThisOrbit =
      o.angularChangeThisOrbit +
        |ang ((o.firstOrbitPath ++ [x']).getD ((o.firstOrbitPath ++ [x']).length - 2)
          ⟨0, 0⟩) x'| := by
  simp only [tickLive]
  split <;> rfl

/-- Indexing the appended path at `length - 2` retrieves the last
element of the original list. -/
theorem getD_append_last {α : Type} (l : List α) (a d : α) (hne : l ≠ []) :
    (l ++ [a]).getD ((l ++ [a]).length - 2) d = l.getLast hne := by
  have h0 : 0 < l.length := List.length_pos.mpr hne
  have hidx : (l ++ [a]).length - 2 = l.length - 1 := by
    simp only [List.length_append, List.length_singleton]
    omega
  rw [hidx, List.getD_eq_getElem?_getD, List.getElem?_append_left (by omega),
    List.getElem?_eq_getElem (by omega)]
  simp [List.getLast_eq_getElem]

/-- Numeric absolute-value evaluation used by the trace proofs. -/
theorem habs3 : |(3 : ℚ)| = 3 := by
  rw [abs_of_nonneg]
  norm_num

/-- Tick 1 of the closure counterexample trace. -/
theorem cex_t1 : tick nrmZero angUneven (createNewOrbit ⟨1, 0⟩) = cexOrbit1 := by
  rw [tick_nrmZero_live angUneven _ rfl]
  have hx : Vec2.add (createNewOrbit ⟨1, 0⟩).xPlanet
      (Vec2.smul dtQ (createNewOrbit ⟨1, 0⟩).vPlanet) = ⟨11/1000, -1⟩ := by
    apply Vec2.ext2 <;> norm_num [createNewOrbit, Vec2.add, Vec2.smul, dtQ]
  rw [hx]
  have hang : angUneven ⟨0, -1⟩ ⟨11/1000, -1⟩ = 1/10 := by
    norm_num [angUneven]
  have habs : |(1 : ℚ)/10| = 1/10 := by
    rw [abs_of_nonneg]
    norm_num
  rw [tickLive_no_closure]
  · simp [createNewOrbit, cexOrbit1, hang, habs]
  · simp [createNewOrbit, hang, habs]
    norm_num [jsPI]
    rw [habs]
    norm_num

/-- Tick 2 of the closure counterexample trace. -/
theorem cex_t2 : tick nrmZero angUneven cexOrbit1 = cexOrbit2 := by
  rw [tick_nrmZero_live angUneven _ rfl]
  have hx : Vec2.add cexOrbit1.xPlanet (Vec2.smul dtQ cexOrbit1.vPlanet) =
      ⟨11/500, -1⟩ := by
    apply Vec2.ext2 <;> norm_num [cexOrbit1, Vec2.add, Vec2.smul, dtQ]
  rw [hx]
  have hang : angUneven ⟨11/1000, -1⟩ ⟨11/500, -1⟩ = 3 := by
    norm_num [angUneven]
  rw [tickLive_no_closure]
  · simp [cexOrbit1, cexOrbit2, hang, habs3]
    norm_num
  · simp [cexOrbit1, hang, habs3]
    norm_num [jsPI]

/-- Tick 3 of the closure counterexample trace. -/
theorem cex_t3 : tick nrmZero angUneven cexOrbit2 = cexOrbit3 := by
  rw [tick_nrmZero_live angUneven _ rfl]
  have hx : Vec2.add cexOrbit2.xPlanet (Vec2.smul dtQ cexOrbit2.vPlanet) =
      ⟨33/1000, -1⟩ := by
    apply Vec2.ext2 <;> norm_num [cexOrbit2, cexOrbit1, Vec2.add, Vec2.smul, dtQ]
  rw [hx]
  have hang : angUneven ⟨11/500, -1⟩ ⟨33/1000, -1⟩ = 3 := by
    norm_num [angUneven]
  rw [tickLive_no_closure]
  · simp [cexOrbit2, cexOrbit1, cexOrbit3, hang, habs3]
    norm_num
  · simp [cexOrbit2, cexOrbit1, hang, habs3]
    norm_num [jsPI]

/-- Tick 4 of the closure counterexample trace: the closure tick, whose
committed subindex is about 28.17. -/
theorem cex_t4 : tick nrmZero angUneven cexOrbit3 = cexOrbit4 := by
  rw [tick_nrmZero_live angUneven _ rfl]
  have hx : Vec2.add cexOrbit3.xPlanet (Vec2.smul dtQ cexOrbit3.vPlanet) =
      ⟨11/250, -1⟩ := by
    apply Vec2.ext2 <;> norm_num [cexOrbit3, cexOrbit1, Vec2.add, Vec2.smul, dtQ]
  rw [hx]
  have hang : angUneven ⟨33/1000, -1⟩ ⟨11/250, -1⟩ = 3 := by
    norm_num [angUneven]
  have hang0 : angUneven ⟨11/1000, -1⟩ ⟨0, -1⟩ = 1/10 := by
    norm_num [angUneven]
  have habs01 : |(1 : ℚ)/10| = 1/10 := by
    rw [abs_of_nonneg]
    norm_num
  rw [tickLive_closure]
  · simp [cexOrbit3, cexOrbit1, cexOrbit4, hang, habs3, hang0, habs01]
    norm_num [jsPI]
    rw [habs01]
    norm_num
  · simp [cexOrbit3, cexOrbit1, hang, habs3]
    norm_num [jsPI]

/-- The source sweep-area loop computes the spec's sum of Heron
triangle areas over consecutive point pairs. -/
theorem sweep_eq_heron_spec (rsqrt : ℚ → ℚ) :
    ∀ path, getSweepAreaInAU2 rsqrt path = sweptAreaSpec rsqrt path := by
  intro path
  induction path with
  | nil => simp [getSweepAreaInAU2, sweptAreaSpec]
  | cons p t ih =>
    cases t with
    | nil => simp [getSweepAreaInAU2, sweptAreaSpec]
    | cons q r =>
      have hT : getTriangleArea rsqrt ⟨0, 0⟩ p q = heronTriangleAreaSpec rsqrt p q := rfl
      simp only [getSweepAreaInAU2, sweptAreaSpec, List.tail_cons, List.zip_cons_cons,
        List.map_cons, List.sum_cons] at ih ⊢
      rw [hT, ih]

/-- The sweep area is non-negative whenever the square-root library
function is non-negative-valued. -/
theorem sweep_nonneg (rsqrt : ℚ → ℚ) (hs : ∀ q, 0 ≤ rsqrt q) :
    ∀ path, 0 ≤ getSweepAreaInAU2 rsqrt path := by
  intro path
  induction path with
  | nil => simp [getSweepAreaInAU2]
  | cons p t ih =>
    cases t with
    | nil => simp [getSweepAreaInAU2]
    | cons q r =>
      simp only [getSweepAreaInAU2]
      exact add_nonneg (hs _) ih

/-- Paths with fewer than two points have zero sweep area. -/
theorem sweep_short (rsqrt : ℚ → ℚ) (path : List Vec2) (h : path.length < 2) :
    getSweepAreaInAU2 rsqrt path = 0 := by
  match path with
  | [] => rfl
  | [p] => rfl
  | p :: q :: r =>
    simp only [List.length_cons] at h
    omega

/-- The squared distance is symmetric in its endpoints. -/
theorem magSq_sub_comm (a b : Vec2) :
    Vec2.magSq (Vec2.sub a b) = Vec2.magSq (Vec2.sub b a) := by
  dsimp only [Vec2.magSq, Vec2.sub]
  ring

/-- The p5 distance is symmetric in its endpoints. -/
theorem vecDist_comm (rsqrt : ℚ → ℚ) (a b : Vec2) :
    vecDist rsqrt a b = vecDist rsqrt b a :=
  congrArg rsqrt (magSq_sub_comm a b)

/-- Heron's formula is invariant under swapping the last two
vertices. -/
theorem tri_swap (rsqrt : ℚ → ℚ) (p0 p1 p2 : Vec2) :
    getTriangleArea rsqrt p0 p1 p2 = getTriangleArea rsqrt p0 p2 p1 := by
  unfold getTriangleArea
  rw [vecDist_comm rsqrt p0 p2, vecDist_comm rsqrt p2 p1, vecDist_comm rsqrt p1 p0]
  exact congrArg rsqrt (by ring)

/-- Unfolding equation of the sweep-area recursion. -/
theorem sweep_cons_cons (rsqrt : ℚ → ℚ) (h1 h2 : Vec2) (t : List Vec2) :
    getSweepAreaInAU2 rsqrt (h1 :: h2 :: t) =
      getTriangleArea rsqrt ⟨0, 0⟩ h1 h2 + getSweepAreaInAU2 rsqrt (h2 :: t) := rfl

/-- Appending one point adds one triangle contribution (paired with the
formerly last point). -/
theorem sweep_append (rsqrt : ℚ → ℚ) :
    ∀ (l : List Vec2) (a : Vec2),
      getSweepAreaInAU2 rsqrt (l ++ [a]) =
        getSweepAreaInAU2 rsqrt l +
          l.getLast?.elim 0 (fun p => getTriangleArea rsqrt ⟨0, 0⟩ p a) := by
  intro l
  induction l with
  | nil => intro a; simp [getSweepAreaInAU2]
  | cons p t ih =>
    intro a
    cases t with
    | nil => simp [getSweepAreaInAU2]
    | cons q r =>
      have h1 : (p :: q :: r) ++ [a] = p :: q :: (r ++ [a]) := rfl
      have h2 : q :: (r ++ [a]) = (q :: r) ++ [a] := rfl
      rw [h1, sweep_cons_cons, h2, ih a, sweep_cons_cons, List.getLast?_cons_cons]
      ring

/-- Numeric absolute-value evaluation used by the witness proofs. -/
theorem habs7 : |(7 : ℚ)| = 7 := by
  rw [abs_of_nonneg]
  norm_num

/-- With the constant angle 7 (> 2π) the very first tick of a fresh orbit
already triggers the closure transition. -/
theorem c9_transition : (tick nrmZero angSeven orbit0).isFirstOrbit = false := by
  rw [tick_nrmZero_live angSeven orbit0 rfl, tickLive_closure]
  simp [orbit0, createNewOrbit, angSeven, habs7]
  norm_num [jsPI]

-- ————————————————————————————————————————————————————————————————————
-- Claim theorems
-- ————————————————————————————————————————————————————————————————————

/-- Claim C1 (confirmed): during LiveSimulation each tick feeds the
current state to `advanceSubdivided` (= `liveResult`), appends the newly
integrated position `x'` to `firstOrbitPath`, and adds the unsigned angle
between the new point and its predecessor (the previously last path
point, as computed by the source's `path[length-2]` access) to
`angularChangeThisOrbit`; on a tick whose updated accumulator exceeds 2π
the tracker leaves LiveSimulation and at that instant sets
`indexCarryOver = (accumulator − 2π) / |angle(path[1], path[0])|`,
`currSnapIndex = 0` and `currSnapSubindex = indexCarryOver`. -/
theorem live_tick_spec (nrm : Vec2 → Vec2) (ang : Vec2 → Vec2 → ℚ) (o : Orbit)
    (h : o.isFirstOrbit = true) :
    ∃ v' x', liveResult nrm o = some (v', x') ∧
      (tick nrm ang o).firstOrbitPath = o.firstOrbitPath ++ [x'] ∧
      (tick nrm ang o).angularChangeThisOrbit =
        o.angularChangeThisOrbit +
          |ang ((o.firstOrbitPath ++ [x']).getD ((o.firstOrbitPath ++ [x']).length - 2)
            ⟨0, 0⟩) x'| ∧
      (∀ hne : o.firstOrbitPath ≠ [],
        (o.firstOrbitPath ++ [x']).getD ((o.firstOrbitPath ++ [x']).length - 2) ⟨0, 0⟩ =
          o.firstOrbitPath.getLast hne) ∧
      (jsPI * 2 < (tick nrm ang o).angularChangeThisOrbit →
        (tick nrm ang o).isFirstOrbit = false ∧
        (tick nrm ang o).indexCarryOver =
          ((tick nrm ang o).angularChangeThisOrbit - jsPI * 2) /
            |ang ((o.firstOrbitPath ++ [x']).getD 1 ⟨0, 0⟩)
              ((o.firstOrbitPath ++ [x']).getD 0 ⟨0, 0⟩)| ∧
        (tick nrm ang o).currSnapIndex = 0 ∧
        (tick nrm ang o).currSnapSubindex = (tick nrm ang o).indexCarryOver) := by
  obtain ⟨v', x', hres⟩ := liveResult_some nrm o
  refine ⟨v', x', hres, ?_, ?_, ?_, ?_⟩
  · rw [tick_live nrm ang o h v' x' hres, tickLive_path]
  · rw [tick_live nrm ang o h v' x' hres, tickLive_acc]
  · intro hne
    exact getD_append_last o.firstOrbitPath x' ⟨0, 0⟩ hne
  · intro hlt
    rw [tick_live nrm ang o h v' x' hres] at hlt ⊢
    rw [tickLive_acc] at hlt
    rw [tickLive_closure ang o v' x' hlt]
    exact ⟨rfl, rfl, rfl, rfl⟩

/-- Witness for C1 at the concrete fresh orbit `orbit0` with the
`nrmZero` / `angUneven` library instances. -/
theorem live_tick_spec_witness :
    ∃ v' x', liveResult nrmZero orbit0 = some (v', x') ∧
      (tick nrmZero angUneven orbit0).firstOrbitPath =
        orbit0.firstOrbitPath ++ [x'] ∧
      (tick nrmZero angUneven orbit0).angularChangeThisOrbit =
        orbit0.angularChangeThisOrbit +
          |angUneven ((orbit0.firstOrbitPath ++ [x']).getD
            ((orbit0.firstOrbitPath ++ [x']).length - 2) ⟨0, 0⟩) x'| ∧
      (∀ hne : orbit0.firstOrbitPath ≠ [],
        (orbit0.firstOrbitPath ++ [x']).getD
            ((orbit0.firstOrbitPath ++ [x']).length - 2) ⟨0, 0⟩ =
          orbit0.firstOrbitPath.getLast hne) ∧
      (jsPI * 2 < (tick nrmZero angUneven orbit0).angularChangeThisOrbit →
        (tick nrmZero angUneven orbit0).isFirstOrbit = false ∧
        (tick nrmZero angUneven orbit0).indexCarryOver =
          ((tick nrmZero angUneven orbit0).angularChangeThisOrbit - jsPI * 2) /
            |angUneven ((orbit0.firstOrbitPath ++ [x']).getD 1 ⟨0, 0⟩)
              ((orbit0.firstOrbitPath ++ [x']).getD 0 ⟨0, 0⟩)| ∧
        (tick nrmZero angUneven orbit0).currSnapIndex = 0 ∧
        (tick nrmZero angUneven orbit0).currSnapSubindex =
          (tick nrmZero angUneven orbit0).indexCarryOver) :=
  live_tick_spec nrmZero angUneven orbit0 rfl

/-- Claim C2, counterexample: `interpolatePosition(path, index, 0)` is
not `path[index]` — at path `[(0,0), (1,0)]` and index 0 a zero subindex
returns the second point `(1,0)`, not the first. -/
theorem interpolate_weight_zero_cex :
    interpolatePosition [⟨0, 0⟩, ⟨1, 0⟩] 0 0 ≠
      List.getD [(⟨0, 0⟩ : Vec2), ⟨1, 0⟩] 0 ⟨0, 0⟩ := by
  simp [interpolatePosition, Vec2.add, Vec2.smul, Vec2.mk.injEq]

/-- Claim C2 (amended): in SnappedReplay the output position is
`interpolatePosition(path, replayIndex, replaySubindex)`, which equals
`replaySubindex·path[replayIndex] +
(1−replaySubindex)·path[(replayIndex+1) mod length]`: the subindex is the
weight of the *earlier* point, so weight 1 (not weight 0) yields exactly
`path[replayIndex]`, and weight 0 yields the later point
`path[(replayIndex+1) mod length]`. -/
theorem interpolate_weight_convention :
    (∀ (path : List Vec2) (i : ℕ) (s : ℚ) (h : i < path.length),
      interpolatePosition path i s =
        Vec2.add (Vec2.smul s (path.get ⟨i, h⟩))
          (Vec2.smul (1 - s) (path.getD ((i + 1) % path.length) ⟨0, 0⟩)) ∧
      interpolatePosition path i 1 = path.get ⟨i, h⟩ ∧
      interpolatePosition path i 0 = path.getD ((i + 1) % path.length) ⟨0, 0⟩) ∧
    (∀ (nrm : Vec2 → Vec2) (ang : Vec2 → Vec2 → ℚ) (o : Orbit),
      o.isFirstOrbit = false →
      (tick nrm ang o).xPlanet =
        interpolatePosition o.firstOrbitPath (tick nrm ang o).currSnapIndex
          (tick nrm ang o).currSnapSubindex) := by
  constructor
  · intro path i s h
    have hget : path.getD i ⟨0, 0⟩ = path.get ⟨i, h⟩ := by
      rw [List.getD_eq_getElem?_getD, List.getElem?_eq_getElem h]
      simp [List.get_eq_getElem]
    refine ⟨?_, ?_, ?_⟩
    · rw [interpolatePosition, hget]
    · rw [interpolatePosition, hget]
      apply Vec2.ext2 <;>
        · dsimp only [Vec2.add, Vec2.smul]
          ring
    · rw [interpolatePosition, hget]
      apply Vec2.ext2 <;>
        · dsimp only [Vec2.add, Vec2.smul]
          ring
  · intro nrm ang o h
    rw [tick_replay nrm ang o h]
    simp only [tickReplay]

/-- Witness for C2 at path `[(0,0), (1,0)]`, index 0, subindex 1/2 and
at the concrete replay orbit. -/
theorem interpolate_weight_convention_witness :
    (interpolatePosition [⟨0, 0⟩, ⟨1, 0⟩] 0 (1/2) =
        Vec2.add (Vec2.smul (1/2) (List.get [(⟨0, 0⟩ : Vec2), ⟨1, 0⟩] ⟨0, by norm_num⟩))
          (Vec2.smul (1 - 1/2)
            (List.getD [(⟨0, 0⟩ : Vec2), ⟨1, 0⟩]
              ((0 + 1) % (List.length [(⟨0, 0⟩ : Vec2), ⟨1, 0⟩])) ⟨0, 0⟩)) ∧
      interpolatePosition [⟨0, 0⟩, ⟨1, 0⟩] 0 1 =
        List.get [(⟨0, 0⟩ : Vec2), ⟨1, 0⟩] ⟨0, by norm_num⟩ ∧
      interpolatePosition [⟨0, 0⟩, ⟨1, 0⟩] 0 0 =
        List.getD [(⟨0, 0⟩ : Vec2), ⟨1, 0⟩]
          ((0 + 1) % (List.length [(⟨0, 0⟩ : Vec2), ⟨1, 0⟩])) ⟨0, 0⟩) ∧
    ((tick nrmZero angSeven orbitReplay).xPlanet =
      interpolatePosition orbitReplay.firstOrbitPath
        (tick nrmZero angSeven orbitReplay).currSnapIndex
        (tick nrmZero angSeven orbitReplay).currSnapSubindex) :=
  ⟨interpolate_weight_convention.1 [⟨0, 0⟩, ⟨1, 0⟩] 0 (1/2) (by norm_num),
   interpolate_weight_convention.2 nrmZero angSeven orbitReplay rfl⟩

/-- Claim C3, counterexample: on the concrete trace driven by the
`nrmZero` / `angUneven` library instances (step angles 1/10, 3, 3, 3 —
all valid unsigned angles in [0, π]), the tick that enters SnappedReplay
leaves `currSnapSubindex ≈ 28.17 ≥ 1`, so the claimed invariant
`replaySubindex ∈ [0, 1)` after every tick is false. -/
theorem replay_subindex_range_cex :
    (tick nrmZero angUneven (tick nrmZero angUneven (tick nrmZero angUneven
      (tick nrmZero angUneven (createNewOrbit ⟨1, 0⟩))))).isFirstOrbit = false ∧
    1 ≤ (tick nrmZero angUneven (tick nrmZero angUneven (tick nrmZero angUneven
      (tick nrmZero angUneven (createNewOrbit ⟨1, 0⟩))))).currSnapSubindex := by
  rw [cex_t1, cex_t2, cex_t3, cex_t4]
  constructor
  · rfl
  · norm_num [cexOrbit4]

/-- Claim C3 (amended): provided `indexCarryOver ∈ [0, 1)` — which the
closure computation does not guarantee, see the counterexample — every
SnappedReplay tick keeps `replaySubindex` in [0, 1), and an overflow to
≥ 1 at a wrap triggers exactly one increment of `replayIndex` (to 1)
together with a subtraction of 1.  (The entry tick sets
`replaySubindex = indexCarryOver`, see C1, so it is in range exactly when
`indexCarryOver` is.) -/
theorem replay_subindex_range (nrm : Vec2 → Vec2) (ang : Vec2 → Vec2 → ℚ)
    (o : Orbit) (h : o.isFirstOrbit = false)
    (h0 : 0 ≤ o.currSnapSubindex) (h1 : o.currSnapSubindex < 1)
    (c0 : 0 ≤ o.indexCarryOver) (c1 : o.indexCarryOver < 1) :
    (0 ≤ (tick nrm ang o).currSnapSubindex ∧
      (tick nrm ang o).currSnapSubindex < 1) ∧
    (o.currSnapIndex + 1 = o.firstOrbitPath.length →
      1 ≤ o.currSnapSubindex + o.indexCarryOver →
      (tick nrm ang o).currSnapIndex = 1 ∧
      (tick nrm ang o).currSnapSubindex =
        o.currSnapSubindex + o.indexCarryOver - 1) := by
  rw [tick_replay nrm ang o h]
  simp only [tickReplay]
  split
  · next hw =>
    split
    · next hs =>
      dsimp only []
      refine ⟨⟨by linarith, by linarith⟩, fun _ _ => ⟨rfl, rfl⟩⟩
    · next hs =>
      dsimp only []
      rw [not_le] at hs
      refine ⟨⟨by linarith, by linarith⟩, fun _ hs' => absurd hs' (by linarith)⟩
  · next hw =>
    dsimp only []
    exact ⟨⟨h0, h1⟩, fun hw' _ => absurd hw' hw⟩

/-- Witness for C3 at the concrete replay orbit (a wrap with
overflow). -/
theorem replay_subindex_range_witness :
    (0 ≤ (tick nrmZero angSeven orbitReplay).currSnapSubindex ∧
      (tick nrmZero angSeven orbitReplay).currSnapSubindex < 1) ∧
    (orbitReplay.currSnapIndex + 1 = orbitReplay.firstOrbitPath.length →
      1 ≤ orbitReplay.currSnapSubindex + orbitReplay.indexCarryOver →
      (tick nrmZero angSeven orbitReplay).currSnapIndex = 1 ∧
      (tick nrmZero angSeven orbitReplay).currSnapSubindex =
        orbitReplay.currSnapSubindex + orbitReplay.indexCarryOver - 1) :=
  replay_subindex_range nrmZero angSeven orbitReplay rfl
    (by norm_num [orbitReplay]) (by norm_num [orbitReplay])
    (by norm_num [orbitReplay]) (by norm_num [orbitReplay])

/-- Claim C4 (confirmed): with `iterations ≥ 1`,
`updatePlanet_Iterative` performs exactly `iterations` loop passes of the
spec's five equations (acceleration from the running mean position under
the inverse-square force, velocity update, mean velocity, position
update, new mean position) and commits the final `velocityNext` /
`positionNext`; there is no convergence check — the iteration count is
the only loop control. -/
theorem advance_fixed_iteration_refines_spec (nrm : Vec2 → Vec2) (G ts : ℚ)
    (g : Option (Vec2 × Vec2)) (v x : Vec2) (n : ℕ) (h : 1 ≤ n) :
    updatePlanet_Iterative nrm n G ts g v x = some (advanceSpec nrm G ts v x n) := by
  obtain ⟨m, rfl⟩ : ∃ m, n = m + 1 := ⟨n - 1, by omega⟩
  show (iterGo nrm G ts v x g (m + 1)).1 = _
  rw [iterGo_fst_eq_spec]
  rfl

/-- Witness for C4 at one iteration with concrete state. -/
theorem advance_fixed_iteration_refines_spec_witness :
    updatePlanet_Iterative nrmZero 1 1 1 none ⟨0, 0⟩ ⟨0, -1⟩ =
      some (advanceSpec nrmZero 1 1 ⟨0, 0⟩ ⟨0, -1⟩ 1) :=
  advance_fixed_iteration_refines_spec nrmZero 1 1 none ⟨0, 0⟩ ⟨0, -1⟩ 1
    (by norm_num)

/-- Claim C5 (confirmed): during LiveSimulation the accumulator never
decreases on a tick, and a live tick leaves LiveSimulation exactly when
the updated accumulator exceeds 2π — so the transition happens on the
first such tick; once in SnappedReplay the mode stays SnappedReplay and
the accumulator and path are never touched again, so no second
transition can occur until a new Orbit is created. -/
theorem closure_monotonic_single_transition (nrm : Vec2 → Vec2)
    (ang : Vec2 → Vec2 → ℚ) (o : Orbit) :
    (o.isFirstOrbit = true →
      o.angularChangeThisOrbit ≤ (tick nrm ang o).angularChangeThisOrbit ∧
      ((tick nrm ang o).isFirstOrbit = false ↔
        jsPI * 2 < (tick nrm ang o).angularChangeThisOrbit)) ∧
    (o.isFirstOrbit = false →
      (tick nrm ang o).isFirstOrbit = false ∧
      (tick nrm ang o).angularChangeThisOrbit = o.angularChangeThisOrbit ∧
      (tick nrm ang o).firstOrbitPath = o.firstOrbitPath) := by
  constructor
  · intro h
    obtain ⟨v', x', hres⟩ := liveResult_some nrm o
    rw [tick_live nrm ang o h v' x' hres]
    have hnn := abs_nonneg
      (ang ((o.firstOrbitPath ++ [x']).getD ((o.firstOrbitPath ++ [x']).length - 2)
        (⟨0, 0⟩ : Vec2)) x')
    simp only [tickLive]
    split
    · next hlt =>
      dsimp only []
      refine ⟨by linarith, ?_⟩
      exact ⟨fun _ => hlt, fun _ => rfl⟩
    · next hnlt =>
      dsimp only []
      refine ⟨by linarith, ?_⟩
      constructor
      · intro hf
        rw [h] at hf
        exact absurd hf (by simp)
      · intro hlt
        exact absurd hlt hnlt
  · intro h
    rw [tick_replay nrm ang o h]
    simp [tickReplay, h]

/-- Witness for C5 at a concrete live orbit and a concrete replay
orbit. -/
theorem closure_monotonic_single_transition_witness :
    (orbit0.angularChangeThisOrbit ≤
        (tick nrmZero angUneven orbit0).angularChangeThisOrbit ∧
      ((tick nrmZero angUneven orbit0).isFirstOrbit = false ↔
        jsPI * 2 < (tick nrmZero angUneven orbit0).angularChangeThisOrbit)) ∧
    ((tick nrmZero angUneven orbitReplay).isFirstOrbit = false ∧
      (tick nrmZero angUneven orbitReplay).angularChangeThisOrbit =
        orbitReplay.angularChangeThisOrbit ∧
      (tick nrmZero angUneven orbitReplay).firstOrbitPath =
        orbitReplay.firstOrbitPath) :=
  ⟨(closure_monotonic_single_transition nrmZero angUneven orbit0).1 rfl,
   (closure_monotonic_single_transition nrmZero angUneven orbitReplay).2 rfl⟩

/-- Claim C6 (confirmed): a SnappedReplay tick can change only the
planet position, `currSnapIndex` and `currSnapSubindex`: the velocity is
never recomputed or reassigned, the recorded path is never appended to or
mutated, and the mode, accumulator and carry-over are untouched. -/
theorem replay_tick_frame (nrm : Vec2 → Vec2) (ang : Vec2 → Vec2 → ℚ)
    (o : Orbit) (h : o.isFirstOrbit = false) :
    (tick nrm ang o).vPlanet = o.vPlanet ∧
    (tick nrm ang o).firstOrbitPath = o.firstOrbitPath ∧
    (tick nrm ang o).isFirstOrbit = false ∧
    (tick nrm ang o).angularChangeThisOrbit = o.angularChangeThisOrbit ∧
    (tick nrm ang o).indexCarryOver = o.indexCarryOver := by
  rw [tick_replay nrm ang o h]
  simp [tickReplay, h]

/-- Witness for C6 at the concrete replay orbit. -/
theorem replay_tick_frame_witness :
    (tick nrmZero angSeven orbitReplay).vPlanet = orbitReplay.vPlanet ∧
    (tick nrmZero angSeven orbitReplay).firstOrbitPath =
      orbitReplay.firstOrbitPath ∧
    (tick nrmZero angSeven orbitReplay).isFirstOrbit = false ∧
    (tick nrmZero angSeven orbitReplay).angularChangeThisOrbit =
      orbitReplay.angularChangeThisOrbit ∧
    (tick nrmZero angSeven orbitReplay).indexCarryOver =
      orbitReplay.indexCarryOver :=
  replay_tick_frame nrmZero angSeven orbitReplay rfl

/-- Claim C7 (confirmed): `getSweepAreaInAU2` equals the sum over
consecutive point pairs of the Heron-formula area of the triangle
(origin, p_i, p_{i+1}); it is zero on every path of fewer than two points
(in particular the empty and singleton paths), and it is non-negative for
every path whenever the `Math.sqrt` library function is
non-negative-valued (which is its mathematical contract; only the
float artifact NaN escapes it). -/
theorem sweep_area_heron_nonneg_short (rsqrt : ℚ → ℚ) (path : List Vec2) :
    getSweepAreaInAU2 rsqrt path = sweptAreaSpec rsqrt path ∧
    (path.length < 2 → getSweepAreaInAU2 rsqrt path = 0) ∧
    ((∀ q, 0 ≤ rsqrt q) → 0 ≤ getSweepAreaInAU2 rsqrt path) :=
  ⟨sweep_eq_heron_spec rsqrt path, fun h => sweep_short rsqrt path h,
   fun hs => sweep_nonneg rsqrt hs path⟩

/-- Witness for C7 at the zero square-root instance, the empty path and
a two-point path. -/
theorem sweep_area_heron_nonneg_short_witness :
    getSweepAreaInAU2 (fun _ => 0) [] = sweptAreaSpec (fun _ => 0) [] ∧
    getSweepAreaInAU2 (fun _ => 0) [] = 0 ∧
    0 ≤ getSweepAreaInAU2 (fun _ => 0) [⟨3, 4⟩, ⟨1, 2⟩] :=
  ⟨(sweep_area_heron_nonneg_short (fun _ => 0) []).1,
   (sweep_area_heron_nonneg_short (fun _ => 0) []).2.1 (by norm_num),
   (sweep_area_heron_nonneg_short (fun _ => 0) [⟨3, 4⟩, ⟨1, 2⟩]).2.2
     (fun q => le_refl 0)⟩

/-- Claim C8 (confirmed): the sweep area of a path equals the sweep area
of its reverse-order copy — Heron's formula is orientation-independent
and the summation over consecutive pairs is order-insensitive. -/
theorem sweep_area_reverse_invariant (rsqrt : ℚ → ℚ) (path : List Vec2) :
    getSweepAreaInAU2 rsqrt path.reverse = getSweepAreaInAU2 rsqrt path := by
  induction path with
  | nil => rfl
  | cons p t ih =>
    rw [List.reverse_cons, sweep_append, ih, List.getLast?_reverse]
    cases t with
    | nil => simp [getSweepAreaInAU2]
    | cons q r =>
      simp only [List.head?_cons, Option.elim_some]
      rw [tri_swap]
      simp only [getSweepAreaInAU2]
      ring

/-- Claim C9 (confirmed): at a closure transition the carry-over is the
unguarded quotient of the angular overshoot by the first-step angle: when
that angle is nonzero the committed `indexCarryOver` is exactly the
finite quotient (`jsDiv … = some`), and when it is zero the unguarded JS
division produces a non-finite value (`jsDiv … = none`). -/
theorem closure_carryover_division (nrm : Vec2 → Vec2) (ang : Vec2 → Vec2 → ℚ)
    (o : Orbit) (h : o.isFirstOrbit = true)
    (ht : (tick nrm ang o).isFirstOrbit = false) :
    (|ang ((tick nrm ang o).firstOrbitPath.getD 1 ⟨0, 0⟩)
        ((tick nrm ang o).firstOrbitPath.getD 0 ⟨0, 0⟩)| ≠ 0 →
      jsDiv ((tick nrm ang o).angularChangeThisOrbit - jsPI * 2)
        |ang ((tick nrm ang o).firstOrbitPath.getD 1 ⟨0, 0⟩)
          ((tick nrm ang o).firstOrbitPath.getD 0 ⟨0, 0⟩)| =
        some ((tick nrm ang o).indexCarryOver)) ∧
    (|ang ((tick nrm ang o).firstOrbitPath.getD 1 ⟨0, 0⟩)
        ((tick nrm ang o).firstOrbitPath.getD 0 ⟨0, 0⟩)| = 0 →
      jsDiv ((tick nrm ang o).angularChangeThisOrbit - jsPI * 2)
        |ang ((tick nrm ang o).firstOrbitPath.getD 1 ⟨0, 0⟩)
          ((tick nrm ang o).firstOrbitPath.getD 0 ⟨0, 0⟩)| = none) := by
  obtain ⟨v', x', hres⟩ := liveResult_some nrm o
  rw [tick_live nrm ang o h v' x' hres] at ht ⊢
  simp only [tickLive] at ht
  split at ht
  · next hc =>
    rw [tickLive_closure ang o v' x' hc]
    dsimp only []
    constructor
    · intro hfs
      rw [jsDiv, if_neg hfs]
    · intro hfs
      rw [jsDiv, if_pos hfs]
  · next hc =>
    dsimp only [] at ht
    rw [h] at ht
    exact absurd ht (by simp)

/-- Witness for C9 at the concrete fresh orbit with the constant-7 angle
instance (closure on the first tick, first-step angle 7 ≠ 0). -/
theorem closure_carryover_division_witness :
    (|angSeven ((tick nrmZero angSeven orbit0).firstOrbitPath.getD 1 ⟨0, 0⟩)
        ((tick nrmZero angSeven orbit0).firstOrbitPath.getD 0 ⟨0, 0⟩)| ≠ 0 →
      jsDiv ((tick nrmZero angSeven orbit0).angularChangeThisOrbit - jsPI * 2)
        |angSeven ((tick nrmZero angSeven orbit0).firstOrbitPath.getD 1 ⟨0, 0⟩)
          ((tick nrmZero angSeven orbit0).firstOrbitPath.getD 0 ⟨0, 0⟩)| =
        some ((tick nrmZero angSeven orbit0).indexCarryOver)) ∧
    (|angSeven ((tick nrmZero angSeven orbit0).firstOrbitPath.getD 1 ⟨0, 0⟩)
        ((tick nrmZero angSeven orbit0).firstOrbitPath.getD 0 ⟨0, 0⟩)| = 0 →
      jsDiv ((tick nrmZero angSeven orbit0).angularChangeThisOrbit - jsPI * 2)
        |angSeven ((tick nrmZero angSeven orbit0).firstOrbitPath.getD 1 ⟨0, 0⟩)
          ((tick nrmZero angSeven orbit0).firstOrbitPath.getD 0 ⟨0, 0⟩)| = none) :=
  closure_carryover_division nrmZero angSeven orbit0 rfl c9_transition

/-- Claim C10 (confirmed): the committed `vNext`/`xNext` are only
assigned inside the iteration loop, so with `iterations = m + 1` the
commit is exactly the last pass's output, while with `iterations = 0` the
commit is whatever the undeclared globals held: the leftovers of a
previous call (never computed from the current input), or — on the very
first call — a ReferenceError, modelled by the `none` commit. -/
theorem advance_zero_iterations_commits_globals (nrm : Vec2 → Vec2) (G ts : ℚ)
    (v x : Vec2) :
    (∀ g, updatePlanet_Iterative nrm 0 G ts g v x = g) ∧
    updatePlanet_Iterative nrm 0 G ts none v x = none ∧
    (∀ g m, updatePlanet_Iterative nrm (m + 1) G ts g v x =
      some ((iterPass nrm G ts v x (iterGo nrm G ts v x g m).2).1,
            (iterPass nrm G ts v x (iterGo nrm G ts v x g m).2).2.1)) :=
  ⟨fun _ => rfl, rfl, fun _ _ => rfl⟩

end OrbitalSim
